import Mathlib

/-!
Verification development for the `mergefiles` repository.

The Python modules `mergefiles/core.py` (authoritative) and the build artifact
`build/lib/mergefiles/file_operations.py` are shallowly embedded here.

Modelling conventions:
* A filesystem path is a list of components (`FPath`); `os.path.join a b` is
  list append, `os.path.dirname` is `List.dropLast`, `os.path.relpath p root`
  is `p.drop root.length` for `p` under `root`.
* The filesystem is a finite association list of file paths to contents,
  plus the set of existing directories and the set of paths whose read
  permission is denied (reading them raises `PermissionError`).
* Python exceptions are `Except String`; an uncaught exception is an
  `.error` result of the whole call.
* `os.walk` with the default `onerror=None` silently ignores traversal
  errors, so enumerating a missing root yields the empty sequence; the
  enumeration order is the order of the file table, and (as in Python when
  the destination does not overlap a source root) the enumeration of
  `merge_directories` is computed from the filesystem at call time.
* The SHA-256 digest is modelled as an arbitrary function on contents; all
  theorems about `resolve_conflict_by_hash` are parametric in it.
-/

/-- A filesystem path, as its list of components. -/
abbrev FPath := List String

/-- Render a path as a string, for Python error messages. -/
def pathStr (p : FPath) : String := String.intercalate "/" p

/-- The filesystem: file contents, existing directories, and files whose
read permission is denied. -/
structure FS where
  files : List (FPath × String)
  dirs : List FPath
  unreadable : List FPath
deriving DecidableEq

/-- Look up the content of a file in the file table. -/
def lookupFile : List (FPath × String) → FPath → Option String
  | [], _ => none
  | (q, c) :: rest, p => if p = q then some c else lookupFile rest p

/-- Write a file: overwrite in place if present, append otherwise. -/
def setFile : List (FPath × String) → FPath → String → List (FPath × String)
  | [], p, c => [(p, c)]
  | (q, c') :: rest, p, c =>
      if p = q then (q, c) :: rest else (q, c') :: setFile rest p c

/-- `p` names an existing regular file. -/
def FS.isFile (fs : FS) (p : FPath) : Bool := (lookupFile fs.files p).isSome

/-- `p` names an existing directory. -/
def FS.isDir (fs : FS) (p : FPath) : Bool := p ∈ fs.dirs

/-- `os.path.exists`: a file or a directory is present at `p`. -/
def FS.pathExists (fs : FS) (p : FPath) : Bool := fs.isFile p || fs.isDir p

/-- `open(p, 'rb').read()`: `FileNotFoundError` when the file is missing,
`PermissionError` when it is unreadable. -/
def FS.readFile (fs : FS) (p : FPath) : Except String String :=
  match lookupFile fs.files p with
  | none => .error ("No such file or directory: " ++ pathStr p)
  | some c =>
      if p ∈ fs.unreadable then .error ("Permission denied: " ++ pathStr p)
      else .ok c

/-- `os.makedirs p`: creates `p` and every missing ancestor; raises when a
regular file occupies `p` or one of its ancestors. -/
def makedirsE (fs : FS) (p : FPath) : Except String FS :=
  if p.inits.any (fun q => fs.isFile q) then
    .error ("File exists: " ++ pathStr p)
  else
    .ok { fs with dirs := fs.dirs ++ p.inits.filter (fun q => ¬ q ∈ fs.dirs) }

/-- `shutil.copy src dst`: reads `src` (may raise), then writes `dst`;
raises when `dst` is an existing directory or its parent directory is
missing. -/
def shutilCopy (fs : FS) (src dst : FPath) : Except String FS :=
  match fs.readFile src with
  | .error e => .error e
  | .ok c =>
      if dst ∈ fs.dirs then .error ("Is a directory: " ++ pathStr dst)
      else if dst.dropLast ∈ fs.dirs then
        .ok { fs with files := setFile fs.files dst c }
      else .error ("No such file or directory: " ++ pathStr dst)

/-- `collect_files_gen` (core.py lines 64-77): `os.walk` over `directory`,
yielding `(relative path, absolute path)` for every regular file below the
root.  With `os.walk`'s default `onerror=None`, a missing or unreadable
root raises nothing and contributes no entries. -/
def collectFilesGen (fs : FS) (directory : FPath) : List (FPath × FPath) :=
  fs.files.filterMap fun e =>
    if directory <+: e.1 ∧ directory.length < e.1.length then
      some (e.1.drop directory.length, e.1)
    else none

/-- `itertools.chain(*[collect_files_gen(src) for src in src_dirs])`. -/
def collectAll (fs : FS) (srcDirs : List FPath) : List (FPath × FPath) :=
  (srcDirs.map (collectFilesGen fs)).flatten

/-- The result of a conflict resolver: Python `None`, a single path
(string), or a list of paths. -/
inductive ResolveOut where
  | skip
  | single (p : FPath)
  | both (ps : List FPath)
deriving DecidableEq

/-- A conflict resolver: reads the filesystem and may raise. -/
abbrev ResolverT := FS → FPath → FPath → Except String ResolveOut

/-- `resolve_conflict_by_hash` (core.py lines 15-33): read both files
fully, digest each, return `None` on equal digests and `[src, dst]`
otherwise.  The digest `h` is an abstract parameter standing for SHA-256. -/
def resolveConflictByHash (h : String → String) : ResolverT := fun fs srcPath dstPath =>
  match fs.readFile srcPath with
  | .error e => .error e
  | .ok srcContent =>
      match fs.readFile dstPath with
      | .error e => .error e
      | .ok dstContent =>
          if h srcContent = h dstContent then .ok .skip
          else .ok (.both [srcPath, dstPath])

/-- `keep_both_files` (core.py lines 35-47). -/
def keepBothFiles : ResolverT := fun _ srcPath dstPath =>
  .ok (.both [srcPath, dstPath])

/-- `os.path.commonpath` on component paths: the longest common leading
run of components. -/
def commonPath : FPath → FPath → FPath
  | [], _ => []
  | _, [] => []
  | a :: as_, b :: bs => if a = b then a :: commonPath as_ bs else []

/-- `keep_files_from_preferred_src` (core.py lines 49-62): keep the source
only when it lies under `preferred`, else `None`. -/
def keepFilesFromPreferredSrc (preferred : FPath) : ResolverT := fun _ srcPath _ =>
  .ok (if commonPath srcPath preferred = preferred then .single srcPath else .skip)

/-- A recorded failure: `copy_file` appends a dict with source,
destination and message; the active `merge_directories` appends `str(e)`
alone. -/
inductive ErrEntry where
  | record (src dst msg : String)
  | plain (msg : String)
deriving DecidableEq

/-- The run summary (`summary` dict in core.py). -/
structure Summary where
  files_copied : Nat
  directories_created : Nat
  conflicts : List FPath
  errors : List ErrEntry
deriving DecidableEq

/-- The empty summary every merge invocation starts from. -/
def Summary.init : Summary := ⟨0, 0, [], []⟩

/-- `f"_v(i+1)"` spliced four characters from the end of the destination
name (core.py line 125: `dst_path[:-4] + f"_v..." + dst_path[-4:]`).  The
Python slice acts on the whole path string; for a final component of
length at least four (the dot-plus-3-character-extension case the code
assumes) it stays inside that component, which is what this models. -/
def versionedName (name : String) (n : Nat) : String :=
  name.dropRight 4 ++ "_v" ++ toString n ++ name.takeRight 4

/-- The versioned destination path for the `n`-th kept path. -/
def versionedPath (dstPath : FPath) (n : Nat) : FPath :=
  dstPath.dropLast ++ [versionedName (dstPath.getLastD "") n]

/-- Result of one `copy_file` call: the filesystem afterwards plus its
local summary deltas (core.py lines 107-152 merge them in at the end,
including the deltas accumulated before an exception). -/
structure CopyResult where
  fs : FS
  files_copied : Nat
  directories_created : Nat
  conflicts : List FPath
  errors : List ErrEntry
deriving DecidableEq

/-- Mutable locals of the `copy_file` body: filesystem, counters, the
conflict and error lists, and the (reassignable) `src_path` variable. -/
structure CState where
  fs : FS
  fc : Nat
  dc : Nat
  cf : List FPath
  er : List ErrEntry
  src : FPath
deriving DecidableEq

/-- The `for i, path in enumerate(resolved_paths)` loop of `copy_file`
(core.py lines 124-131): count the copy, then unless dry-run ensure the
destination directory and copy to the versioned name.  An exception stops
the loop, keeping the counters accumulated so far. -/
def copyBothLoop (dstPath dstDir : FPath) (dry : Bool) :
    Nat → CState → List FPath → Except (CState × String) CState
  | _, s, [] => .ok s
  | i, s, p :: rest =>
      let s1 : CState := { s with fc := s.fc + 1 }
      if dry then copyBothLoop dstPath dstDir dry (i + 1) s1 rest
      else
        match (if s1.fs.pathExists dstDir then Except.ok s1
               else match makedirsE s1.fs dstDir with
                    | .error e => Except.error (s1, e)
                    | .ok fs2 => Except.ok { s1 with fs := fs2, dc := s1.dc + 1 }) with
        | .error se => .error se
        | .ok s2 =>
            match shutilCopy s2.fs p (versionedPath dstPath (i + 1)) with
            | .error e => .error (s2, e)
            | .ok fs3 => copyBothLoop dstPath dstDir dry (i + 1) { s2 with fs := fs3 } rest

/-- `copy_file` (core.py lines 79-152): on an existing destination invoke
the resolver; `None` appends the destination to `conflicts`, a list drives
the versioned-copy loop, a single path replaces `src_path`.  Control then
falls through to the unconditional copy step (lines 136-142).  Any
exception inside the `try` is caught and recorded as a structured
src/dst/message entry, keeping the deltas accumulated so far. -/
def copyFile (resolver : ResolverT) (fs0 : FS) (srcPath0 dstPath : FPath)
    (dry : Bool) : CopyResult :=
  let dstDir := dstPath.dropLast
  let s0 : CState := ⟨fs0, 0, 0, [], [], srcPath0⟩
  let afterConflict : Except (CState × String) CState :=
    if fs0.pathExists dstPath then
      match resolver fs0 srcPath0 dstPath with
      | .error e => .error (s0, e)
      | .ok .skip => .ok { s0 with cf := [dstPath] }
      | .ok (.both ps) => copyBothLoop dstPath dstDir dry 0 s0 ps
      | .ok (.single p) => .ok { s0 with src := p }
    else .ok s0
  let afterCopy : Except (CState × String) CState :=
    match afterConflict with
    | .error se => .error se
    | .ok s =>
        if dry then .ok s
        else
          let s1 : CState := { s with fc := s.fc + 1 }
          match (if s1.fs.pathExists dstDir then Except.ok s1
                 else match makedirsE s1.fs dstDir with
                      | .error e => Except.error (s1, e)
                      | .ok fs2 => Except.ok { s1 with fs := fs2, dc := s1.dc + 1 }) with
          | .error se => .error se
          | .ok s2 =>
              match shutilCopy s2.fs s2.src dstPath with
              | .error e => .error (s2, e)
              | .ok fs3 => .ok { s2 with fs := fs3 }
  match afterCopy with
  | .ok s => ⟨s.fs, s.fc, s.dc, s.cf, s.er⟩
  | .error (s, e) =>
      ⟨s.fs, s.fc, s.dc, s.cf,
        s.er ++ [ErrEntry.record (pathStr s.src) (pathStr dstPath) e]⟩

/-- State threaded through the `merge_directories` loop: the filesystem,
the `processed_files` set and the summary. -/
structure MState where
  fs : FS
  processed : List FPath
  summary : Summary
deriving DecidableEq

/-- One non-skipped iteration of the `merge_directories` loop (core.py
lines 264-281): claim the relative path, ensure the destination directory
(`os.makedirs` outside any `try`, so its failure aborts the whole merge),
then attempt the copy; a copy failure appends `str(e)` to `errors`. -/
def mergeStep (dstDir : FPath) (dry : Bool) (s : MState) (rel srcp : FPath) :
    Except String MState :=
  let s1 : MState := { s with processed := rel :: s.processed }
  let dstPath := dstDir ++ rel
  let dstDirPath := dstPath.dropLast
  let dirStep : Except String MState :=
    if s1.fs.pathExists dstDirPath then Except.ok s1
    else if dry then Except.ok s1
    else
      match makedirsE s1.fs dstDirPath with
      | .error e => Except.error e
      | .ok fs2 =>
          let sm2 := { s1.summary with
                       directories_created := s1.summary.directories_created + 1 }
          Except.ok { s1 with fs := fs2, summary := sm2 }
  match dirStep with
  | .error e => .error e
  | .ok s2 =>
      if dry then .ok s2
      else
        match shutilCopy s2.fs srcp dstPath with
        | .ok fs3 =>
            let sm3 := { s2.summary with files_copied := s2.summary.files_copied + 1 }
            .ok { s2 with fs := fs3, summary := sm3 }
        | .error e =>
            let sm3 := { s2.summary with errors := s2.summary.errors ++ [ErrEntry.plain e] }
            .ok { s2 with summary := sm3 }

/-- The `for relative_path, src_path in file_gen` loop of
`merge_directories` (core.py lines 261-281), skipping already-claimed
relative paths. -/
def mergeLoop (dstDir : FPath) (dry : Bool) : MState → List (FPath × FPath) → Except String MState
  | s, [] => .ok s
  | s, (rel, srcp) :: rest =>
      if rel ∈ s.processed then mergeLoop dstDir dry s rest
      else
        match mergeStep dstDir dry s rel srcp with
        | .error e => .error e
        | .ok s' => mergeLoop dstDir dry s' rest

/-- `merge_directories` (core.py lines 223-285, the active definition):
enumerate all roots, run the loop, return the summary.  The
`conflict_resolver` parameter is accepted (default
`resolve_conflict_by_hash`) but, as in the source, never used. -/
def mergeDirectories (fs : FS) (srcDirs : List FPath) (dstDir : FPath)
    (conflict_resolver : ResolverT) (dry : Bool) : Except String (Summary × FS) :=
  match mergeLoop dstDir dry ⟨fs, [], Summary.init⟩ (collectAll fs srcDirs) with
  | .error e => .error e
  | .ok s => .ok (s.summary, s.fs)

/-- The relative paths of the regular files under `root`. -/
def relFilesUnder (fs : FS) (root : FPath) : List FPath :=
  (collectFilesGen fs root).map Prod.fst

/-- Copy each relative path in `rels` from under `srcRoot` to under
`dstRoot`, creating destination directories as needed. -/
def copyAllRel (srcRoot dstRoot : FPath) (fs : FS) (rels : List FPath) : FS :=
  rels.foldl
    (fun acc rel =>
      match lookupFile acc.files (srcRoot ++ rel) with
      | some c =>
          { acc with
            files := setFile acc.files (dstRoot ++ rel) c,
            dirs := acc.dirs ++
              ((dstRoot ++ rel).dropLast.inits.filter (fun q => ¬ q ∈ acc.dirs)) }
      | none => acc)
    fs

/-- Modelled from the spec: the Smart Pairwise Merger `smartMerge`
(spec sections 4.5 and 8) is not present under `src/`; this definition
follows the spec's words.  Enumerate the relative file paths under the two
folders, compute the two deficit sets, and let the folder missing at least
as many files as the other be the effective target (on an exact tie the
first argument is the target); copy the deficit set, plus the whole
intersection when `overwrite` is true, from the effective source into the
effective target. -/
def smartMerge (fs : FS) (a b : FPath) (overwrite : Bool) : FS :=
  let filesA := relFilesUnder fs a
  let filesB := relFilesUnder fs b
  let missingInA := filesB.filter (fun p => ¬ p ∈ filesA)
  let missingInB := filesA.filter (fun p => ¬ p ∈ filesB)
  if missingInB.length ≤ missingInA.length then
    copyAllRel b a fs
      (missingInA ++ (if overwrite then filesB.filter (fun p => p ∈ filesA) else []))
  else
    copyAllRel a b fs
      (missingInB ++ (if overwrite then filesA.filter (fun p => p ∈ filesB) else []))

/-- The summary of a merge result, taking the empty summary for an aborted
run. -/
def summaryOf (r : Except String (Summary × FS)) : Summary :=
  match r with
  | .ok (sm, _) => sm
  | .error _ => Summary.init

/-- The filesystem of a merge result, taking `fs` for an aborted run. -/
def fsOf (fs : FS) (r : Except String (Summary × FS)) : FS :=
  match r with
  | .ok (_, fs') => fs'
  | .error _ => fs

/-- Number of relative paths in the stream that are claimed for the first
time, given the set already claimed. -/
def firstClaims : List FPath → List (FPath × FPath) → Nat
  | _, [] => 0
  | seen, (r, _) :: rest =>
      if r ∈ seen then firstClaims seen rest
      else firstClaims (r :: seen) rest + 1

/-- Well-formedness of a filesystem: every proper leading part of a file's
path is an existing directory. -/
def FS.WF (fs : FS) : Prop :=
  ∀ e ∈ fs.files, ∀ q ∈ e.1.inits, q ≠ e.1 → q ∈ fs.dirs

/-! ### Concrete filesystems used as test inputs -/

/-- One source file `s/a.txt`, an existing destination directory `d`. -/
def fsOne : FS := ⟨[(["s", "a.txt"], "x")], [[], ["s"], ["d"]], []⟩

/-- Two source files, the first of which is unreadable. -/
def fsUnread : FS :=
  ⟨[(["s", "a.txt"], "x"), (["s", "b.txt"], "y")], [[], ["s"], ["d"]], [["s", "a.txt"]]⟩

/-- A source file under `s1` and a pre-existing destination file with
different content. -/
def fsSkip : FS :=
  ⟨[(["s1", "a.txt"], "NEW"), (["d", "a.txt"], "OLD")], [[], ["s1"], ["d"]], []⟩

/-- A source file and a same-named destination file with different
content, for the keep-both scenario. -/
def fsKB : FS :=
  ⟨[(["s", "a.txt"], "X"), (["d", "a.txt"], "Y")], [[], ["s"], ["d"]], []⟩

/-- Two source roots holding the same relative path `f.txt` with different
contents. -/
def fsDup : FS :=
  ⟨[(["s1", "f.txt"], "one"), (["s2", "f.txt"], "two")],
   [[], ["s1"], ["s2"], ["d"]], []⟩

/-- Pairwise-merge scenario: A holds `f1`, B holds `f1` and `f2`. -/
def fsPair1 : FS :=
  ⟨[(["A", "f1"], "x"), (["B", "f1"], "y"), (["B", "f2"], "z")],
   [[], ["A"], ["B"]], []⟩

/-- Pairwise-merge scenario: A holds `f1` and `f2`, B holds `f1`. -/
def fsPair2 : FS :=
  ⟨[(["A", "f1"], "x"), (["A", "f2"], "w"), (["B", "f1"], "y")],
   [[], ["A"], ["B"]], []⟩

/-! ### Basic lemmas about the filesystem operations -/

theorem lookupFile_setFile_self (l : List (FPath × String)) (p : FPath) (c : String) :
    lookupFile (setFile l p c) p = some c := by
  induction l with
  | nil => simp [setFile, lookupFile]
  | cons e rest ih =>
      obtain ⟨q, c'⟩ := e
      by_cases hpq : p = q
      · subst hpq; simp [setFile, lookupFile]
      · simp [setFile, lookupFile, hpq, ih]

theorem lookupFile_setFile_ne (l : List (FPath × String)) (p q : FPath) (c : String)
    (h : q ≠ p) : lookupFile (setFile l p c) q = lookupFile l q := by
  induction l with
  | nil => simp [setFile, lookupFile, h]
  | cons e rest ih =>
      obtain ⟨a, c'⟩ := e
      by_cases hpa : p = a
      · subst hpa
        simp [setFile, lookupFile, h]
      · by_cases hqa : q = a
        · subst hqa; simp [setFile, lookupFile, hpa]
        · simp [setFile, lookupFile, hpa, hqa, ih]

theorem readFile_ok_of (fs : FS) (p : FPath) (c : String)
    (hl : lookupFile fs.files p = some c) (hr : ¬ p ∈ fs.unreadable) :
    fs.readFile p = .ok c := by
  simp [FS.readFile, hl, hr]

theorem readFile_ok_elim (fs : FS) (p : FPath) (c : String)
    (h : fs.readFile p = .ok c) :
    lookupFile fs.files p = some c ∧ ¬ p ∈ fs.unreadable := by
  cases hl : lookupFile fs.files p with
  | none => simp [FS.readFile, hl] at h
  | some c' =>
      by_cases hr : p ∈ fs.unreadable
      · simp [FS.readFile, hl, hr] at h
      · simp [FS.readFile, hl, hr] at h
        subst h
        exact ⟨rfl, hr⟩

theorem pathExists_of_lookup (fs : FS) (p : FPath) (c : String)
    (h : lookupFile fs.files p = some c) : fs.pathExists p = true := by
  simp [FS.pathExists, FS.isFile, h]

theorem pathExists_of_dir (fs : FS) (p : FPath) (h : p ∈ fs.dirs) :
    fs.pathExists p = true := by
  simp [FS.pathExists, FS.isDir, h]

theorem shutilCopy_ok (fs : FS) (src dst : FPath) (c : String)
    (hread : fs.readFile src = .ok c)
    (hdstdir : ¬ dst ∈ fs.dirs) (hparent : dst.dropLast ∈ fs.dirs) :
    shutilCopy fs src dst = .ok { fs with files := setFile fs.files dst c } := by
  simp [shutilCopy, hread, hdstdir, hparent]

/-! ### Lemmas about the `merge_directories` loop -/

theorem mergeStep_cases (dstDir : FPath) (dry : Bool) (s : MState) (rel srcp : FPath) :
    (∃ e, mergeStep dstDir dry s rel srcp = .error e) ∨
    (∃ fs' sm', mergeStep dstDir dry s rel srcp = .ok ⟨fs', rel :: s.processed, sm'⟩ ∧
      sm'.conflicts = s.summary.conflicts ∧
      (dry = false →
        sm'.files_copied + sm'.errors.length =
          s.summary.files_copied + s.summary.errors.length + 1) ∧
      (dry = true → fs' = s.fs ∧ sm' = s.summary)) := by
  by_cases hex : ({ s with processed := rel :: s.processed } : MState).fs.pathExists
      ((dstDir ++ rel).dropLast)
  · cases dry with
    | true =>
        right
        exact ⟨s.fs, s.summary, by simp [mergeStep, hex], rfl, by simp, fun _ => ⟨rfl, rfl⟩⟩
    | false =>
        right
        cases hc : shutilCopy s.fs srcp (dstDir ++ rel) with
        | ok fs3 =>
            refine ⟨fs3, { s.summary with files_copied := s.summary.files_copied + 1 },
              ?_, rfl, ?_, by simp⟩
            · simp [mergeStep, hex, hc]
            · intro _; simp; omega
        | error e =>
            refine ⟨s.fs, { s.summary with errors := s.summary.errors ++ [ErrEntry.plain e] },
              ?_, rfl, ?_, by simp⟩
            · simp [mergeStep, hex, hc]
            · intro _; simp [List.length_append]; omega
  · cases dry with
    | true =>
        right
        exact ⟨s.fs, s.summary, by simp [mergeStep, hex], rfl, by simp, fun _ => ⟨rfl, rfl⟩⟩
    | false =>
        cases hm : makedirsE s.fs ((dstDir ++ rel).dropLast) with
        | error e =>
            left
            exact ⟨e, by simp [mergeStep, hex, hm]⟩
        | ok fs2 =>
            right
            cases hc : shutilCopy fs2 srcp (dstDir ++ rel) with
            | ok fs3 =>
                refine ⟨fs3, { s.summary with
                    directories_created := s.summary.directories_created + 1,
                    files_copied := s.summary.files_copied + 1 },
                  ?_, rfl, ?_, by simp⟩
                · simp [mergeStep, hex, hm, hc]
                · intro _; simp; omega
            | error e =>
                refine ⟨fs2, { s.summary with
                    directories_created := s.summary.directories_created + 1,
                    errors := s.summary.errors ++ [ErrEntry.plain e] },
                  ?_, rfl, ?_, by simp⟩
                · simp [mergeStep, hex, hm, hc]
                · intro _; simp [List.length_append]; omega

theorem mergeLoop_conflicts (dstDir : FPath) (dry : Bool) :
    ∀ (l : List (FPath × FPath)) (s s' : MState),
      mergeLoop dstDir dry s l = .ok s' →
      s'.summary.conflicts = s.summary.conflicts := by
  intro l
  induction l with
  | nil =>
      intro s s' h
      simp [mergeLoop] at h
      rw [← h]
  | cons e rest ih =>
      intro s s' h
      obtain ⟨rel, srcp⟩ := e
      by_cases hmem : rel ∈ s.processed
      · rw [mergeLoop, if_pos hmem] at h
        exact ih s s' h
      · rw [mergeLoop, if_neg hmem] at h
        rcases mergeStep_cases dstDir dry s rel srcp with ⟨e', he⟩ | ⟨fs', sm', hok, hcf, _, _⟩
        · rw [he] at h
          exact absurd h (by simp)
        · rw [hok] at h
          simp only at h
          rw [ih _ _ h]
          exact hcf

theorem mergeLoop_dry (dstDir : FPath) :
    ∀ (l : List (FPath × FPath)) (s : MState),
      ∃ pr, mergeLoop dstDir true s l = .ok ⟨s.fs, pr, s.summary⟩ := by
  intro l
  induction l with
  | nil =>
      intro s
      exact ⟨s.processed, by simp [mergeLoop]⟩
  | cons e rest ih =>
      intro s
      obtain ⟨rel, srcp⟩ := e
      by_cases hmem : rel ∈ s.processed
      · obtain ⟨pr, hpr⟩ := ih s
        exact ⟨pr, by rw [mergeLoop, if_pos hmem]; exact hpr⟩
      · rcases mergeStep_cases dstDir true s rel srcp with ⟨e', he⟩ | ⟨fs', sm', hok, _, _, hdry⟩
        · exact absurd he (by simp [mergeStep])
        · obtain ⟨hfs, hsm⟩ := hdry rfl
          subst hfs
          subst hsm
          obtain ⟨pr, hpr⟩ := ih ⟨s.fs, rel :: s.processed, s.summary⟩
          refine ⟨pr, ?_⟩
          rw [mergeLoop, if_neg hmem, hok]
          exact hpr

theorem mergeLoop_counts (dstDir : FPath) :
    ∀ (l : List (FPath × FPath)) (s s' : MState),
      mergeLoop dstDir false s l = .ok s' →
      s'.summary.files_copied + s'.summary.errors.length =
        s.summary.files_copied + s.summary.errors.length + firstClaims s.processed l := by
  intro l
  induction l with
  | nil =>
      intro s s' h
      simp [mergeLoop] at h
      rw [← h]
      simp [firstClaims]
  | cons e rest ih =>
      intro s s' h
      obtain ⟨rel, srcp⟩ := e
      by_cases hmem : rel ∈ s.processed
      · rw [mergeLoop, if_pos hmem] at h
        rw [ih s s' h, firstClaims, if_pos hmem]
      · rw [mergeLoop, if_neg hmem] at h
        rcases mergeStep_cases dstDir false s rel srcp with ⟨e', he⟩ | ⟨fs', sm', hok, _, hc, _⟩
        · rw [he] at h
          exact absurd h (by simp)
        · rw [hok] at h
          simp only at h
          rw [ih _ _ h]
          simp only
          rw [hc rfl, firstClaims, if_neg hmem]
          omega

theorem mergeLoop_processed_mono (dstDir : FPath) (dry : Bool) :
    ∀ (l : List (FPath × FPath)) (s s' : MState),
      mergeLoop dstDir dry s l = .ok s' →
      ∀ r ∈ s.processed, r ∈ s'.processed := by
  intro l
  induction l with
  | nil =>
      intro s s' h
      simp [mergeLoop] at h
      rw [← h]
      exact fun r hr => hr
  | cons e rest ih =>
      intro s s' h
      obtain ⟨rel, srcp⟩ := e
      by_cases hmem : rel ∈ s.processed
      · rw [mergeLoop, if_pos hmem] at h
        exact ih s s' h
      · rw [mergeLoop, if_neg hmem] at h
        rcases mergeStep_cases dstDir dry s rel srcp with ⟨e', he⟩ | ⟨fs', sm', hok, _, _, _⟩
        · rw [he] at h
          exact absurd h (by simp)
        · rw [hok] at h
          simp only at h
          intro r hr
          exact ih _ _ h r (by simp [hr])

theorem mergeLoop_skip_of_processed (dstDir : FPath) (dry : Bool) (rel p : FPath) :
    ∀ (m l₂ : List (FPath × FPath)) (s : MState), rel ∈ s.processed →
      mergeLoop dstDir dry s (m ++ (rel, p) :: l₂) = mergeLoop dstDir dry s (m ++ l₂) := by
  intro m
  induction m with
  | nil =>
      intro l₂ s hmem
      simp only [List.nil_append]
      rw [mergeLoop, if_pos hmem]
  | cons e rest ih =>
      intro l₂ s hmem
      obtain ⟨a, q⟩ := e
      by_cases ha : a ∈ s.processed
      · simp only [List.cons_append]
        rw [mergeLoop, if_pos ha, mergeLoop, if_pos ha]
        exact ih l₂ s hmem
      · simp only [List.cons_append]
        rw [mergeLoop, if_neg ha, mergeLoop, if_neg ha]
        rcases mergeStep_cases dstDir dry s a q with ⟨e', he⟩ | ⟨fs', sm', hok, _, _, _⟩
        · rw [he]
        · rw [hok]
          simp only
          exact ih l₂ ⟨fs', a :: s.processed, sm'⟩ (by simp [hmem])

theorem mergeLoop_dup_aux (dstDir : FPath) (dry : Bool) (rel p : FPath) :
    ∀ (l₁ l₂ : List (FPath × FPath)) (s : MState), rel ∈ l₁.map Prod.fst →
      mergeLoop dstDir dry s (l₁ ++ (rel, p) :: l₂) = mergeLoop dstDir dry s (l₁ ++ l₂) := by
  intro l₁
  induction l₁ with
  | nil =>
      intro l₂ s h
      simp at h
  | cons e t ih =>
      intro l₂ s h
      obtain ⟨a, q⟩ := e
      simp only [List.map_cons, List.mem_cons] at h
      by_cases ha : a ∈ s.processed
      · simp only [List.cons_append]
        rw [mergeLoop, if_pos ha, mergeLoop, if_pos ha]
        rcases h with h | h
        · exact mergeLoop_skip_of_processed dstDir dry rel p t l₂ s (h ▸ ha)
        · exact ih l₂ s h
      · simp only [List.cons_append]
        rw [mergeLoop, if_neg ha, mergeLoop, if_neg ha]
        rcases mergeStep_cases dstDir dry s a q with ⟨e', he⟩ | ⟨fs', sm', hok, _, _, _⟩
        · rw [he]
        · rw [hok]
          simp only
          rcases h with h | h
          · exact mergeLoop_skip_of_processed dstDir dry rel p t l₂
              ⟨fs', a :: s.processed, sm'⟩ (by simp [h])
          · exact ih l₂ ⟨fs', a :: s.processed, sm'⟩ h

/-! ### Claim theorems -/

/-- C1 (code bug evaluation): with a resolver that returns the skip action
(`None`) on an existing, different destination file, `copy_file`
nevertheless falls through to the unconditional copy (core.py lines
136-142): the destination is appended to `conflicts` *and* overwritten
with the source's content, with `files_copied` incremented — contradicting
the code's own comment "skip and log the conflict". -/
theorem copyFile_skip_conflict_still_copies :
    copyFile (keepFilesFromPreferredSrc ["s2"]) fsSkip ["s1", "a.txt"] ["d", "a.txt"] false =
      ⟨⟨[(["s1", "a.txt"], "NEW"), (["d", "a.txt"], "NEW")], [[], ["s1"], ["d"]], []⟩,
        1, 0, [["d", "a.txt"]], []⟩ ∧
    lookupFile fsSkip.files ["d", "a.txt"] = some "OLD" ∧
    lookupFile (copyFile (keepFilesFromPreferredSrc ["s2"]) fsSkip
        ["s1", "a.txt"] ["d", "a.txt"] false).fs.files ["d", "a.txt"] = some "NEW" := by
  decide

/-- C3 (counterexample): on `fsOne`, a dry run reports `files_copied = 0`
while the non-dry run on the same inputs reports `files_copied = 1`, so
the dry-run summary does not match the non-dry-run summary. -/
theorem mergeDirectories_dry_run_cex :
    (summaryOf (mergeDirectories fsOne [["s"]] ["d"] (resolveConflictByHash id) true)).files_copied
        = 0 ∧
    (summaryOf (mergeDirectories fsOne [["s"]] ["d"] (resolveConflictByHash id) false)).files_copied
        = 1 ∧
    ¬ (summaryOf (mergeDirectories fsOne [["s"]] ["d"] (resolveConflictByHash id) true)).files_copied
        = (summaryOf (mergeDirectories fsOne [["s"]] ["d"] (resolveConflictByHash id) false)).files_copied := by
  decide

/-- C3 (amended): a dry run of `merge_directories` mutates nothing — it
returns the filesystem unchanged — and reports all-zero counts
(`files_copied = 0`, `directories_created = 0`), because the increments at
core.py lines 271-279 sit inside `if not dry_run`. -/
theorem mergeDirectories_dry_run_pure (fs : FS) (srcs : List FPath) (dst : FPath)
    (r : ResolverT) :
    mergeDirectories fs srcs dst r true = .ok (Summary.init, fs) := by
  obtain ⟨pr, hpr⟩ := mergeLoop_dry dst (collectAll fs srcs) ⟨fs, [], Summary.init⟩
  unfold mergeDirectories
  rw [hpr]

/-- C10: the active `merge_directories` (core.py lines 223-285) never
invokes its `conflict_resolver` argument — the result is identical for any
two resolvers — and its returned summary's `conflicts` list is empty for
every input. -/
theorem mergeDirectories_resolver_never_used (fs : FS) (srcs : List FPath) (dst : FPath)
    (r₁ r₂ : ResolverT) (dry : Bool) :
    mergeDirectories fs srcs dst r₁ dry = mergeDirectories fs srcs dst r₂ dry ∧
    (summaryOf (mergeDirectories fs srcs dst r₁ dry)).conflicts = [] := by
  refine ⟨rfl, ?_⟩
  unfold mergeDirectories summaryOf
  cases hloop : mergeLoop dst dry ⟨fs, [], Summary.init⟩ (collectAll fs srcs) with
  | error e => rfl
  | ok s => exact mergeLoop_conflicts dst dry _ _ _ hloop

/-- C2 (counterexample): after one completed merge of `fsOne` into `d`,
running the same merge again with the Hash-Equality Resolver reports
`files_copied = 1`, not `0`: the loop re-copies unconditionally. -/
theorem mergeDirectories_second_run_cex :
    (summaryOf (mergeDirectories
        (fsOf fsOne (mergeDirectories fsOne [["s"]] ["d"] (resolveConflictByHash id) false))
        [["s"]] ["d"] (resolveConflictByHash id) false)).files_copied = 1 ∧
    ¬ (summaryOf (mergeDirectories
        (fsOf fsOne (mergeDirectories fsOne [["s"]] ["d"] (resolveConflictByHash id) false))
        [["s"]] ["d"] (resolveConflictByHash id) false)).files_copied = 0 := by
  decide

/-- C2 (amended): a second run of the same merge is not a no-op — on every
completed run (in particular the second), every first-claimed relative
path is attempted again, so `files_copied + |errors|` equals the number of
first-claimed paths of that run's enumeration; `conflicts` is empty on
both runs because the resolver is never consulted. -/
theorem mergeDirectories_second_run_recopies (fs : FS) (srcs : List FPath) (dst : FPath)
    (r : ResolverT) (sm1 sm2 : Summary) (fs1 fs2 : FS)
    (h1 : mergeDirectories fs srcs dst r false = .ok (sm1, fs1))
    (h2 : mergeDirectories fs1 srcs dst r false = .ok (sm2, fs2)) :
    sm2.files_copied + sm2.errors.length = firstClaims [] (collectAll fs1 srcs) ∧
    sm2.conflicts = [] ∧ sm1.conflicts = [] := by
  unfold mergeDirectories at h1 h2
  cases hl1 : mergeLoop dst false ⟨fs, [], Summary.init⟩ (collectAll fs srcs) with
  | error e => rw [hl1] at h1; exact absurd h1 (by simp)
  | ok st1 =>
      rw [hl1] at h1
      simp only [Except.ok.injEq, Prod.mk.injEq] at h1
      cases hl2 : mergeLoop dst false ⟨fs1, [], Summary.init⟩ (collectAll fs1 srcs) with
      | error e => rw [hl2] at h2; exact absurd h2 (by simp)
      | ok st2 =>
          rw [hl2] at h2
          simp only [Except.ok.injEq, Prod.mk.injEq] at h2
          refine ⟨?_, ?_, ?_⟩
          · rw [← h2.1]
            have := mergeLoop_counts dst (collectAll fs1 srcs) _ _ hl2
            simpa [Summary.init] using this
          · rw [← h2.1]
            exact mergeLoop_conflicts dst false _ _ _ hl2
          · rw [← h1.1]
            exact mergeLoop_conflicts dst false _ _ _ hl1

/-- C2 witness: the amended statement instantiated on `fsOne`: the second
run copies exactly the one enumerated file again. -/
theorem mergeDirectories_second_run_recopies_witness :
    (summaryOf (mergeDirectories
        (fsOf fsOne (mergeDirectories fsOne [["s"]] ["d"] (resolveConflictByHash id) false))
        [["s"]] ["d"] (resolveConflictByHash id) false)).files_copied +
      (summaryOf (mergeDirectories
        (fsOf fsOne (mergeDirectories fsOne [["s"]] ["d"] (resolveConflictByHash id) false))
        [["s"]] ["d"] (resolveConflictByHash id) false)).errors.length =
      firstClaims [] (collectAll
        (fsOf fsOne (mergeDirectories fsOne [["s"]] ["d"] (resolveConflictByHash id) false))
        [["s"]]) := by
  have h := mergeDirectories_second_run_recopies fsOne [["s"]] ["d"]
    (resolveConflictByHash id) ⟨1, 0, [], []⟩ ⟨1, 0, [], []⟩
    ⟨[(["s", "a.txt"], "x"), (["d", "a.txt"], "x")], [[], ["s"], ["d"]], []⟩
    ⟨[(["s", "a.txt"], "x"), (["d", "a.txt"], "x")], [[], ["s"], ["d"]], []⟩
    (by rfl) (by rfl)
  have h2 := h.1
  revert h2
  decide

/-- C4 (counterexample): enumerating the nonexistent root `nope` on
`fsOne` raises nothing — it yields the empty listing — and the merge over
that root completes normally with the all-zero summary rather than
aborting. -/
theorem collectFiles_missing_root_cex :
    collectFilesGen fsOne ["nope"] = [] ∧
    mergeDirectories fsOne [["nope"]] ["d"] (resolveConflictByHash id) false =
      .ok (Summary.init, fsOne) := by
  exact ⟨by decide, by rfl⟩

/-- C4 (amended): on a well-formed filesystem, a root that is not an
existing directory is silently treated as empty: `collect_files_gen`
yields no entries (Python `os.walk` with its default `onerror=None`
ignores the failure), and `merge_directories` over that root completes
normally with the all-zero summary and an unchanged filesystem. -/
theorem collectFiles_missing_root_empty (fs : FS) (root : FPath)
    (hwf : FS.WF fs) (hdir : ¬ fs.isDir root = true) :
    collectFilesGen fs root = [] ∧
    ∀ (dst : FPath) (r : ResolverT) (dry : Bool),
      mergeDirectories fs [root] dst r dry = .ok (Summary.init, fs) := by
  have hnil : collectFilesGen fs root = [] := by
    unfold collectFilesGen
    rw [List.filterMap_eq_nil_iff]
    intro e he
    by_cases hc : root <+: e.1 ∧ root.length < e.1.length
    · exfalso
      apply hdir
      have hin : root ∈ e.1.inits := (List.mem_inits _ _).mpr hc.1
      have hne : root ≠ e.1 := by
        intro heq
        rw [heq] at hc
        exact absurd hc.2 (lt_irrefl _)
      have := hwf e he root hin hne
      simp [FS.isDir, this]
    · simp [hc]
  refine ⟨hnil, ?_⟩
  intro dst r dry
  unfold mergeDirectories
  have hca : collectAll fs [root] = [] := by
    simp [collectAll, hnil]
  rw [hca]
  rfl

/-- C4 witness: `fsOne` is well-formed and has no directory `nope`, and
the amended statement applies to it. -/
theorem collectFiles_missing_root_witness :
    FS.WF fsOne ∧ ¬ fsOne.isDir ["nope"] = true ∧ collectFilesGen fsOne ["nope"] = [] := by
  refine ⟨?_, ?_, ?_⟩
  · unfold FS.WF
    decide
  · decide
  · exact (collectFiles_missing_root_empty fsOne ["nope"]
      (by unfold FS.WF; decide) (by decide)).1

/-- C5: once a relative path has been claimed by an earlier element of the
enumeration stream, a later occurrence of the same relative path is
skipped silently by the `merge_directories` loop: removing that element
changes nothing — it is never copied and produces no summary entry — and
consequently `merge_directories` itself behaves as if the later duplicate
were absent from its concatenated enumeration. -/
theorem mergeDirectories_first_occurrence_wins (dstDir : FPath) (dry : Bool)
    (l₁ l₂ : List (FPath × FPath)) (rel p : FPath) (s : MState)
    (hmem : rel ∈ l₁.map Prod.fst) :
    mergeLoop dstDir dry s (l₁ ++ (rel, p) :: l₂) = mergeLoop dstDir dry s (l₁ ++ l₂) ∧
    ∀ (fs : FS) (srcs : List FPath) (r : ResolverT),
      collectAll fs srcs = l₁ ++ (rel, p) :: l₂ →
      mergeDirectories fs srcs dstDir r dry =
        (match mergeLoop dstDir dry ⟨fs, [], Summary.init⟩ (l₁ ++ l₂) with
         | .error e => .error e
         | .ok st => .ok (st.summary, st.fs)) := by
  refine ⟨mergeLoop_dup_aux dstDir dry rel p l₁ l₂ s hmem, ?_⟩
  intro fs srcs r hcoll
  unfold mergeDirectories
  rw [hcoll, mergeLoop_dup_aux dstDir dry rel p l₁ l₂ _ hmem]

/-- C5 witness: on `fsDup`, whose two roots both hold `f.txt`, the loop on
the full stream equals the loop on the stream without the duplicate. -/
theorem mergeDirectories_first_occurrence_wins_witness :
    (["f.txt"] : FPath) ∈
      ([((["f.txt"] : FPath), (["s1", "f.txt"] : FPath))].map Prod.fst) ∧
    mergeLoop ["d"] false ⟨fsDup, [], Summary.init⟩
        ([(["f.txt"], ["s1", "f.txt"])] ++ (["f.txt"], ["s2", "f.txt"]) :: []) =
      mergeLoop ["d"] false ⟨fsDup, [], Summary.init⟩
        ([(["f.txt"], ["s1", "f.txt"])] ++ []) :=
  ⟨by decide,
   (mergeDirectories_first_occurrence_wins ["d"] false
      [(["f.txt"], ["s1", "f.txt"])] [] ["f.txt"] ["s2", "f.txt"]
      ⟨fsDup, [], Summary.init⟩ (by decide)).1⟩

/-- C8: on two readable files, `resolve_conflict_by_hash` digests both
contents and returns the skip action (`None`) exactly when the digests are
equal, and otherwise the keep-both action listing the source path first
and the existing destination path second. -/
theorem resolveConflictByHash_spec (h : String → String) (fs : FS)
    (src dst : FPath) (cs cd : String)
    (hs : fs.readFile src = .ok cs) (hd : fs.readFile dst = .ok cd) :
    resolveConflictByHash h fs src dst =
      .ok (if h cs = h cd then ResolveOut.skip else ResolveOut.both [src, dst]) := by
  unfold resolveConflictByHash
  rw [hs, hd]
  by_cases heq : h cs = h cd
  · simp [heq]
  · simp [heq]

/-- C8 witness: on `fsKB` with the identity digest, the two contents
differ, so the resolver returns keep-both with source first. -/
theorem resolveConflictByHash_spec_witness :
    fsKB.readFile ["s", "a.txt"] = .ok "X" ∧
    fsKB.readFile ["d", "a.txt"] = .ok "Y" ∧
    resolveConflictByHash id fsKB ["s", "a.txt"] ["d", "a.txt"] =
      .ok (if id "X" = id "Y" then ResolveOut.skip
           else ResolveOut.both [["s", "a.txt"], ["d", "a.txt"]]) :=
  ⟨by rfl, by rfl,
   resolveConflictByHash_spec id fsKB ["s", "a.txt"] ["d", "a.txt"] "X" "Y"
     (by rfl) (by rfl)⟩

/-- C9 (modelled from the spec, `smartMerge` being absent from `src/`):
the pairwise merger copies the deficit set into the folder missing more
files: with A = (f1) and B = (f1, f2), A gains `f2` and B is unchanged;
with A = (f1, f2) and B = (f1), B gains `f2`. -/
theorem smartMerge_orientation :
    smartMerge fsPair1 ["A"] ["B"] false =
      ⟨[(["A", "f1"], "x"), (["B", "f1"], "y"), (["B", "f2"], "z"), (["A", "f2"], "z")],
       [[], ["A"], ["B"]], []⟩ ∧
    smartMerge fsPair2 ["A"] ["B"] false =
      ⟨[(["A", "f1"], "x"), (["A", "f2"], "w"), (["B", "f1"], "y"), (["B", "f2"], "w")],
       [[], ["A"], ["B"]], []⟩ := by
  exact ⟨by rfl, by rfl⟩

/-- C7 (counterexample): on `fsUnread`, whose first file is unreadable,
the merge catches the failure and continues (the second file is copied),
but the recorded entry is the bare message string `str(e)` (core.py line
281) — no entry carries a structured source/destination record. -/
theorem mergeDirectories_error_plain_cex :
    mergeDirectories fsUnread [["s"]] ["d"] (resolveConflictByHash id) false =
      .ok (⟨1, 0, [], [ErrEntry.plain "Permission denied: s/a.txt"]⟩,
        ⟨[(["s", "a.txt"], "x"), (["s", "b.txt"], "y"), (["d", "b.txt"], "y")],
         [[], ["s"], ["d"]], [["s", "a.txt"]]⟩) ∧
    ((summaryOf (mergeDirectories fsUnread [["s"]] ["d"] (resolveConflictByHash id) false)).errors.all
      (fun e => match e with
        | ErrEntry.record _ _ _ => false
        | ErrEntry.plain _ => true)) = true := by
  exact ⟨by rfl, by decide⟩

/-- C7 (amended): a per-file copy failure inside the merge loop is caught,
recorded as the error's message string appended to `errors` (not as a
structured source/destination record — only the unused `copy_file` builds
those), and the loop continues with the remaining files. -/
theorem mergeLoop_copy_error_recorded (dstDir : FPath) (s : MState) (rel p : FPath)
    (rest : List (FPath × FPath)) (e : String)
    (hmem : ¬ rel ∈ s.processed)
    (hex : s.fs.pathExists ((dstDir ++ rel).dropLast) = true)
    (hcopy : shutilCopy s.fs p (dstDir ++ rel) = .error e) :
    mergeLoop dstDir false s ((rel, p) :: rest) =
      mergeLoop dstDir false
        ⟨s.fs, rel :: s.processed,
         { s.summary with errors := s.summary.errors ++ [ErrEntry.plain e] }⟩ rest := by
  rw [mergeLoop, if_neg hmem]
  have hstep : mergeStep dstDir false s rel p =
      .ok ⟨s.fs, rel :: s.processed,
        { s.summary with errors := s.summary.errors ++ [ErrEntry.plain e] }⟩ := by
    simp [mergeStep, hex, hcopy]
  rw [hstep]

/-- C7 witness: the amended statement instantiated on `fsUnread`: the
unreadable first file's failure is recorded as a plain message and the
loop proceeds to the second file. -/
theorem mergeLoop_copy_error_recorded_witness :
    ¬ (["a.txt"] : FPath) ∈ (⟨fsUnread, [], Summary.init⟩ : MState).processed ∧
    fsUnread.pathExists (((["d"] : FPath) ++ ["a.txt"]).dropLast) = true ∧
    shutilCopy fsUnread ["s", "a.txt"] (["d"] ++ ["a.txt"]) =
      .error "Permission denied: s/a.txt" ∧
    mergeLoop ["d"] false ⟨fsUnread, [], Summary.init⟩
        [(["a.txt"], ["s", "a.txt"]), (["b.txt"], ["s", "b.txt"])] =
      mergeLoop ["d"] false
        ⟨fsUnread, [["a.txt"]],
         { Summary.init with errors := Summary.init.errors ++
             [ErrEntry.plain "Permission denied: s/a.txt"] }⟩
        [(["b.txt"], ["s", "b.txt"])] :=
  ⟨by decide, by decide, by rfl,
   mergeLoop_copy_error_recorded ["d"] ⟨fsUnread, [], Summary.init⟩
     ["a.txt"] ["s", "a.txt"] [(["b.txt"], ["s", "b.txt"])]
     "Permission denied: s/a.txt" (by decide) (by decide) (by rfl)⟩

/-- C6 (counterexample): on `fsKB` the Hash-Equality Resolver yields
keep-both and `copy_file` produces `d/a_v1.txt` and `d/a_v2.txt`, but the
original unversioned destination `d/a.txt` is *not* absent: the
unconditional copy at core.py lines 136-142 overwrites it with the
source's content. -/
theorem copyFile_keep_both_cex :
    copyFile (resolveConflictByHash id) fsKB ["s", "a.txt"] ["d", "a.txt"] false =
      ⟨⟨[(["s", "a.txt"], "X"), (["d", "a.txt"], "X"),
         (["d", "a_v1.txt"], "X"), (["d", "a_v2.txt"], "Y")],
        [[], ["s"], ["d"]], []⟩, 3, 0, [], []⟩ ∧
    ¬ lookupFile (copyFile (resolveConflictByHash id) fsKB
        ["s", "a.txt"] ["d", "a.txt"] false).fs.files ["d", "a.txt"] = none := by
  exact ⟨by rfl, by decide⟩

theorem versionedPath_dropLast (dst : FPath) (n : Nat) :
    (versionedPath dst n).dropLast = dst.dropLast := by
  simp [versionedPath]

theorem resolveConflictByHash_both (h : String → String) (fs : FS)
    (src dst : FPath) (cs cd : String)
    (hs : fs.readFile src = .ok cs) (hd : fs.readFile dst = .ok cd)
    (hne : ¬ h cs = h cd) :
    resolveConflictByHash h fs src dst = .ok (.both [src, dst]) := by
  unfold resolveConflictByHash
  rw [hs, hd]
  simp [hne]

/-- C6 (amended): on a keep-both conflict from the Hash-Equality Resolver
over a destination whose final name carries a dot-plus-3-character
extension (so the fixed-offset splice stays inside the name), `copy_file`
copies the first listed path (the source) to `..._v1.ext` and the second
(the existing destination) to `..._v2.ext` — but the original unversioned
destination path is then also overwritten with the source's content by the
unconditional final copy, and `files_copied` rises by 3. -/
theorem copyFile_keep_both_versions (h : String → String) (fs : FS)
    (src dst : FPath) (cs cd : String)
    (hs : fs.readFile src = .ok cs)
    (hd : fs.readFile dst = .ok cd)
    (hne : ¬ h cs = h cd)
    (hpar : dst.dropLast ∈ fs.dirs)
    (hdd : ¬ dst ∈ fs.dirs)
    (hv1d : ¬ versionedPath dst 1 ∈ fs.dirs)
    (hv2d : ¬ versionedPath dst 2 ∈ fs.dirs)
    (h1d : ¬ versionedPath dst 1 = dst)
    (h2d : ¬ versionedPath dst 2 = dst)
    (h12 : ¬ versionedPath dst 2 = versionedPath dst 1)
    (hs1 : ¬ src = versionedPath dst 1)
    (hs2 : ¬ src = versionedPath dst 2) :
    copyFile (resolveConflictByHash h) fs src dst false =
      ⟨{ fs with files := setFile (setFile (setFile fs.files
            (versionedPath dst 1) cs) (versionedPath dst 2) cd) dst cs },
        3, 0, [], []⟩ ∧
    lookupFile (copyFile (resolveConflictByHash h) fs src dst false).fs.files
      (versionedPath dst 1) = some cs ∧
    lookupFile (copyFile (resolveConflictByHash h) fs src dst false).fs.files
      (versionedPath dst 2) = some cd ∧
    lookupFile (copyFile (resolveConflictByHash h) fs src dst false).fs.files
      dst = some cs := by
  obtain ⟨hsl, hsu⟩ := readFile_ok_elim fs src cs hs
  obtain ⟨hdl, hdu⟩ := readFile_ok_elim fs dst cd hd
  have hex : fs.pathExists dst = true := pathExists_of_lookup fs dst cd hdl
  have hres := resolveConflictByHash_both h fs src dst cs cd hs hd hne
  set v1 := versionedPath dst 1 with hv1
  set v2 := versionedPath dst 2 with hv2
  set fs1 : FS := { fs with files := setFile fs.files v1 cs } with hfs1
  set fs2 : FS := { fs with files := setFile (setFile fs.files v1 cs) v2 cd } with hfs2
  set fs3 : FS :=
    { fs with files := setFile (setFile (setFile fs.files v1 cs) v2 cd) dst cs } with hfs3
  have hv1par : v1.dropLast ∈ fs.dirs := by rw [hv1, versionedPath_dropLast]; exact hpar
  have hv2par : v2.dropLast ∈ fs.dirs := by rw [hv2, versionedPath_dropLast]; exact hpar
  have hcopy1 : shutilCopy fs src v1 = .ok fs1 :=
    shutilCopy_ok fs src v1 cs hs hv1d hv1par
  have hread2 : fs1.readFile dst = .ok cd := by
    apply readFile_ok_of
    · rw [hfs1]
      simp only
      rw [lookupFile_setFile_ne _ _ _ _ (fun hh => h1d hh.symm)]
      exact hdl
    · exact hdu
  have hcopy2 : shutilCopy fs1 dst v2 = .ok fs2 :=
    shutilCopy_ok fs1 dst v2 cd hread2 hv2d hv2par
  have hread3 : fs2.readFile src = .ok cs := by
    apply readFile_ok_of
    · rw [hfs2]
      simp only
      rw [lookupFile_setFile_ne _ _ _ _ hs2, lookupFile_setFile_ne _ _ _ _ hs1]
      exact hsl
    · exact hsu
  have hcopy3 : shutilCopy fs2 src dst = .ok fs3 :=
    shutilCopy_ok fs2 src dst cs hread3 hdd hpar
  have hmain : copyFile (resolveConflictByHash h) fs src dst false =
      ⟨fs3, 3, 0, [], []⟩ := by
    simp only [copyFile, hex, if_true, hres, copyBothLoop, Bool.false_eq_true, if_false]
    have hpe1 : fs.pathExists dst.dropLast = true := pathExists_of_dir fs _ hpar
    have hpe2 : fs1.pathExists dst.dropLast = true := pathExists_of_dir fs1 _ hpar
    have hpe3 : fs2.pathExists dst.dropLast = true := pathExists_of_dir fs2 _ hpar
    simp [hpe1, hpe2, hpe3, hcopy1, hcopy2, hcopy3]
  refine ⟨hmain, ?_, ?_, ?_⟩
  · rw [hmain]
    simp only [hfs3]
    rw [lookupFile_setFile_ne _ _ _ _ h1d, lookupFile_setFile_ne _ _ _ _ (fun hh => h12 hh.symm)]
    exact lookupFile_setFile_self _ _ _
  · rw [hmain]
    simp only [hfs3]
    rw [lookupFile_setFile_ne _ _ _ _ h2d]
    exact lookupFile_setFile_self _ _ _
  · rw [hmain]
    simp only [hfs3]
    exact lookupFile_setFile_self _ _ _

/-- C6 witness: the amended statement instantiated on `fsKB` with the
identity digest: both versioned names receive the respective contents and
the unversioned destination holds the source's content. -/
theorem copyFile_keep_both_versions_witness :
    fsKB.readFile ["s", "a.txt"] = .ok "X" ∧
    fsKB.readFile ["d", "a.txt"] = .ok "Y" ∧
    ¬ id "X" = id "Y" ∧
    lookupFile (copyFile (resolveConflictByHash id) fsKB
      ["s", "a.txt"] ["d", "a.txt"] false).fs.files
      (versionedPath ["d", "a.txt"] 1) = some "X" ∧
    lookupFile (copyFile (resolveConflictByHash id) fsKB
      ["s", "a.txt"] ["d", "a.txt"] false).fs.files
      (versionedPath ["d", "a.txt"] 2) = some "Y" ∧
    lookupFile (copyFile (resolveConflictByHash id) fsKB
      ["s", "a.txt"] ["d", "a.txt"] false).fs.files
      ["d", "a.txt"] = some "X" := by
  have hmain := copyFile_keep_both_versions id fsKB ["s", "a.txt"] ["d", "a.txt"] "X" "Y"
    (by rfl) (by rfl) (by decide) (by decide) (by decide) (by decide) (by decide)
    (by decide) (by decide) (by decide) (by decide) (by decide)
  exact ⟨by rfl, by rfl, by decide, hmain.2.1, hmain.2.2.1, hmain.2.2.2⟩
